import Mathlib

/-!
Shallow embedding of the spices-dashboard extraction scripts
(convert_india_spices_to_json.py and
demo_final/data-extractor/generate_distributors_json.py).

Spreadsheet cells are modelled by a tagged variant type; Python floats are
modelled by rationals; the float power `x ** (1.0 / years)` used by the CAGR
computation is abstracted by an explicit parameter so statements hold for any
interpretation of it; Python exceptions are modelled by Except.
-/

namespace SpicesDash

/-- A spreadsheet cell: empty (NaN), text, numeric (Python float modelled by a
rational) or boolean. -/
inductive Cell where
  | empty
  | text (s : String)
  | num (q : ℚ)
  | boolean (b : Bool)
deriving DecidableEq

/-- Model of pandas pd.notna: false exactly on a missing/NaN cell. -/
def notna : Cell → Bool
  | .empty => false
  | _ => true

/-- Python truthiness of a cell value. A NaN float is truthy in Python. -/
def truthyCell : Cell → Bool
  | .empty => true
  | .text s => !(s == "")
  | .num q => !(q == 0)
  | .boolean b => b

/-- Python truthiness where None is modelled by Option.none. -/
def truthyOptCell : Option Cell → Bool
  | none => false
  | some c => truthyCell c

/-- Python truthiness of an optional string (None and the empty string are falsy). -/
def truthyOptStr : Option String → Bool
  | none => false
  | some s => !(s == "")

/-- Drop leading and trailing whitespace from a character list. -/
def trimChars (l : List Char) : List Char :=
  ((l.dropWhile Char.isWhitespace).reverse.dropWhile Char.isWhitespace).reverse

/-- Model of Python str.strip(). -/
def pyTrim (s : String) : String := ⟨trimChars s.data⟩

/-- Model of Python str.lower(). -/
def pyLower (s : String) : String := ⟨s.data.map Char.toLower⟩

/-- Whether pat occurs as a contiguous sublist of the second argument. -/
def containsSub (pat : List Char) : List Char → Bool
  | [] => pat.isEmpty
  | c :: t => pat.isPrefixOf (c :: t) || containsSub pat t

/-- Model of the Python substring test pat in s. -/
def strContains (s pat : String) : Bool := containsSub pat.data s.data

/-- Model of Python str.isdigit (restricted to ASCII digits). -/
def strIsDigit (s : String) : Bool := !s.data.isEmpty && s.data.all Char.isDigit

/-- Numeric value of a list of ASCII digits. -/
def digitsVal (cs : List Char) : ℕ := cs.foldl (fun n c => 10 * n + (c.toNat - 48)) 0

/-- Parse an optional sign followed by a nonempty run of digits. -/
def pyIntChars (cs : List Char) : Option ℤ :=
  match cs with
  | '+' :: rest => if !rest.isEmpty && rest.all Char.isDigit then some (digitsVal rest) else none
  | '-' :: rest => if !rest.isEmpty && rest.all Char.isDigit then some (-(digitsVal rest : ℤ)) else none
  | _ => if !cs.isEmpty && cs.all Char.isDigit then some (digitsVal cs) else none

/-- Model of Python int() applied to a string: whitespace is stripped, the rest
must be an optionally signed run of digits, else a ValueError (none). -/
def pyIntStr (s : String) : Option ℤ := pyIntChars (trimChars s.data)

/-- Parse a decimal numeral (optional sign, integer part, optional fractional
part).  Model of Python float() on a string, without exponent notation; an
unparsable string yields none (a ValueError in Python). -/
def parseFloatChars (cs : List Char) : Option ℚ :=
  let sign : ℚ := match cs with
    | '-' :: _ => -1
    | _ => 1
  let cs1 := match cs with
    | '-' :: rest => rest
    | '+' :: rest => rest
    | _ => cs
  let ip := cs1.takeWhile Char.isDigit
  let rest := cs1.dropWhile Char.isDigit
  match rest with
  | [] => if ip.isEmpty then none else some (sign * (digitsVal ip : ℚ))
  | '.' :: rest2 =>
    let fp := rest2.takeWhile Char.isDigit
    let rest3 := rest2.dropWhile Char.isDigit
    if rest3.isEmpty && !(ip.isEmpty && fp.isEmpty) then
      some (sign * ((digitsVal ip : ℚ) + (digitsVal fp : ℚ) / (10 : ℚ) ^ fp.length))
    else none
  | _ => none

/-- Model of Python float() on a string. -/
def parseFloat (s : String) : Option ℚ := parseFloatChars (trimChars s.data)

/-- Decimal digits of a natural number (with fuel for structural recursion). -/
def natToStrAux : ℕ → ℕ → List Char
  | 0, _ => []
  | fuel + 1, n => if n = 0 then [] else natToStrAux fuel (n / 10) ++ [Char.ofNat (48 + n % 10)]

/-- Model of Python str() on a natural number. -/
def natToStr (n : ℕ) : String := if n = 0 then "0" else ⟨natToStrAux (n + 1) n⟩

/-- Model of Python str() on an integer. -/
def intToStr (i : ℤ) : String := if i < 0 then "-" ++ natToStr i.natAbs else natToStr i.natAbs

/-- Display model for a numeric cell (Python shows floats in decimal; only the
integral case, shown as n.0, matters to the extraction logic). -/
def numStr (q : ℚ) : String :=
  if q.den = 1 then intToStr q.num ++ ".0" else intToStr q.num ++ "/" ++ natToStr q.den

/-- Model of Python str() on a cell value. -/
def pyStr : Cell → String
  | .empty => "nan"
  | .text s => s
  | .num q => numStr q
  | .boolean b => if b then "True" else "False"

/-- Model of Python float() on a cell value (none is a raised ValueError). -/
def pyFloat : Cell → Option ℚ
  | .empty => none
  | .text s => parseFloat s
  | .num q => some q
  | .boolean b => some (if b then 1 else 0)

/-- Truncation of a rational toward zero, as Python int() does on a float. -/
def truncQ (q : ℚ) : ℤ :=
  if 0 ≤ q.num then ((q.num.natAbs / q.den : ℕ) : ℤ) else -((q.num.natAbs / q.den : ℕ) : ℤ)

/-- Model of Python int() on a cell value (none is a raised ValueError). -/
def pyInt : Cell → Option ℤ
  | .empty => none
  | .text s => pyIntStr s
  | .num q => some (truncQ q)
  | .boolean b => some (if b then 1 else 0)

/-- Rounding to 2 decimal places (model of Python round(x, 2); ties round up
rather than to even, which no claim depends on). -/
def round2 (q : ℚ) : ℚ := ((⌊q * 100 + 1 / 2⌋ : ℤ) : ℚ) / 100

/-! ## Segment hierarchy extraction (extract_segment_hierarchy) -/

/-- Per segment type: flat or hierarchical, the clean labels seen (in row
order), and the parent to children mapping (insertion ordered, as a Python
dict). -/
structure SegInfo where
  kind : String
  items : List String
  hierarchy : List (String × List String)
deriving DecidableEq

/-- Number of occurrences of the hierarchy marker in a label
(Python item.count of the marker counts occurrences anywhere). -/
def countGT (s : String) : ℕ := (s.data.filter (fun c => c == '>')).length

/-- Strip leading markers and surrounding whitespace from a label. -/
def cleanOf (s : String) : String := pyTrim ⟨s.data.dropWhile (fun c => c == '>')⟩

/-- Scan upward from row i-1 to row 0 of the column for the nearest prior
non-missing cell whose marker count is strictly below level; return its
cleaned label. -/
def scanUp (col : List Cell) (level : ℕ) : ℕ → Option String
  | 0 => none
  | i + 1 =>
    match col.get? i with
    | some c =>
      if notna c then
        let prevItem := pyTrim (pyStr c)
        if countGT prevItem < level then some (cleanOf prevItem) else scanUp col level i
      else scanUp col level i
    | none => scanUp col level i

/-- Append a child under a parent (creating the parent entry if absent),
preserving Python dict insertion order. -/
def addChild (h : List (String × List String)) (p c : String) : List (String × List String) :=
  if h.any (fun e => e.1 == p) then
    h.map (fun e => if e.1 == p then (e.1, e.2 ++ [c]) else e)
  else h ++ [(p, [c])]

/-- One step of the per-column scan of extract_segment_hierarchy at row i. -/
def segStep (col : List Cell) (acc : List String × List (String × List String)) (i : ℕ) :
    List String × List (String × List String) :=
  match col.get? i with
  | none => acc
  | some c =>
    if notna c then
      let item := pyTrim (pyStr c)
      if item ≠ "" ∧ ¬ ("Segmentation".data.isPrefixOf item.data) then
        let clean := cleanOf item
        if clean ≠ "" then
          let items := acc.1 ++ [clean]
          if 0 < countGT item then
            match scanUp col (countGT item) i with
            | some p => if p ≠ "" then (items, addChild acc.2 p clean) else (items, acc.2)
            | none => (items, acc.2)
          else (items, acc.2)
        else acc
      else acc
    else acc

/-- Process one column of the Segmentation sheet (rows 1 onward; the upward
parent scan may reach row 0). -/
def segColumn (col : List Cell) : SegInfo :=
  let res := ((List.range col.length).drop 1).foldl (segStep col) ([], [])
  ⟨if res.2 = [] then "flat" else "hierarchical", res.1, res.2⟩

/-- Insert or overwrite a key in an association list, keeping insertion order
(Python dict assignment). -/
def setAssoc {α β : Type} [DecidableEq α] (m : List (α × β)) (k : α) (v : β) : List (α × β) :=
  if m.any (fun e => decide (e.1 = k)) then
    m.map (fun e => if e.1 = k then (k, v) else e)
  else m ++ [(k, v)]

/-- extract_segment_hierarchy over the raw Segmentation grid: row 0 names the
segment types (filtered for non-missing, which is how the source enumerates
them), each provides one column. -/
def extract_segment_hierarchy (grid : List (List Cell)) : List (String × SegInfo) :=
  match grid with
  | [] => []
  | row0 :: _ =>
    let segTypes := (row0.drop 1).filterMap
      (fun c => if notna c then some (pyTrim (pyStr c)) else none)
    segTypes.enum.foldl
      (fun acc it =>
        if it.2 = "" ∨ it.2 = "Segmentation" then acc
        else setAssoc acc it.2 (segColumn (grid.map (fun r => (r.get? (it.1 + 1)).getD Cell.empty))))
      []

/-- C3: for a segment-type column whose data cells (rows 1..4) are the texts
A, >B, >>C, >D, the per-column scan of extract_segment_hierarchy produces the
hierarchy A maps-to [B, D] and B maps-to [C] (parent found by scanning upward
for the nearest prior cell with strictly smaller marker count), items
[A, B, C, D], and kind hierarchical because the hierarchy is non-empty. -/
theorem segment_hierarchy_example :
    segColumn [Cell.text "Spice Type", Cell.text "A", Cell.text ">B",
        Cell.text ">>C", Cell.text ">D"] =
      ⟨"hierarchical", ["A", "B", "C", "D"], [("A", ["B", "D"]), ("B", ["C"])]⟩ ∧
    (∀ x, x ∈ (segColumn [Cell.text "Spice Type", Cell.text "A", Cell.text ">B",
        Cell.text ">>C", Cell.text ">D"]).items ↔ x ∈ ["A", "B", "C", "D"]) := by
  constructor
  · decide
  · intro x
    constructor
    · intro hx
      simpa [segColumn, segStep, List.range, List.range.loop, scanUp, addChild,
        pyTrim, pyStr, trimChars, cleanOf, countGT, notna] using hx
    · intro hx
      simpa [segColumn, segStep, List.range, List.range.loop, scanUp, addChild,
        pyTrim, pyStr, trimChars, cleanOf, countGT, notna] using hx

/-! ## Metadata extraction (extract_metadata) -/

/-- The canonical metadata record, after defaults are applied. -/
structure Metadata where
  market_name : String
  market_type : String
  industry : String
  currency : String
  value_unit : String
  volume_unit : String
  has_value : Bool
  has_volume : Bool
deriving DecidableEq

/-- Fields of the metadata dict while the Parameters sheet is being scanned
(none = key not yet assigned). -/
structure MetaAcc where
  market_name : Option String := none
  market_type : Option String := none
  industry : Option String := none
  currency : Option String := none
  value_unit : Option String := none
  volume_unit : Option String := none
  has_value : Option Bool := none
  has_volume : Option Bool := none
deriving DecidableEq

/-- Process one row of the Parameters sheet: column 0 is the label, column 1
the value; a row whose label or value is missing or falsy is skipped; the
label is matched against the substring rules in source order. -/
def processParamRow (acc : MetaAcc) (row : List Cell) : MetaAcc :=
  let cell0 := (row.get? 0).getD Cell.empty
  let key : Option String := if notna cell0 then some (pyTrim (pyStr cell0)) else none
  let value : Option Cell := match row.get? 1 with
    | some c => if notna c then some c else none
    | none => none
  if truthyOptStr key && truthyOptCell value then
    let k := key.getD ""
    let v := value.getD Cell.empty
    if strContains k "Report Title" then { acc with market_name := some (pyTrim (pyStr v)) }
    else if strContains k "Market Type" then { acc with market_type := some (pyTrim (pyStr v)) }
    else if strContains k "Industry Type" then { acc with industry := some (pyTrim (pyStr v)) }
    else if strContains k "Value Currency" then { acc with currency := some (pyTrim (pyStr v)) }
    else if strContains k "Value Unit" then { acc with value_unit := some (pyTrim (pyStr v)) }
    else if strContains k "Volume Unit" then { acc with volume_unit := some (pyTrim (pyStr v)) }
    else if strContains k "Value" && !strContains k "Currency" then
      { acc with has_value := some (pyLower (pyTrim (pyStr v)) == "yes") }
    else if strContains k "Volume" && !strContains k "Unit" then
      { acc with has_volume := some (pyLower (pyTrim (pyStr v)) == "yes") }
    else acc
  else acc

/-- Apply the documented literal defaults to any field never assigned. -/
def applyDefaults (acc : MetaAcc) : Metadata :=
  { market_name := acc.market_name.getD "India Spices Market"
    market_type := acc.market_type.getD "Country"
    industry := acc.industry.getD "CMFE"
    currency := acc.currency.getD "INR"
    value_unit := acc.value_unit.getD "Cr."
    volume_unit := acc.volume_unit.getD "Kilo Tons"
    has_value := acc.has_value.getD true
    has_volume := acc.has_volume.getD true }

/-- extract_metadata over the raw Parameters grid. -/
def extract_metadata (grid : List (List Cell)) : Metadata :=
  applyDefaults (grid.foldl processParamRow {})

/-! ## Geography hierarchy (extract_geography_hierarchy) and resolution -/

/-- The geography hierarchy produced from the Region sheet. -/
structure Geographies where
  globalGeos : List String
  regions : List String
  countries : List (String × List String)
  all_geographies : List String
deriving DecidableEq

/-- Lexicographic comparison of character lists (Python string ordering). -/
def lexLe : List Char → List Char → Bool
  | [], _ => true
  | _ :: _, [] => false
  | a :: as, b :: bs => if a = b then lexLe as bs else decide (a < b)

/-- Insert a string into a lexicographically sorted list. -/
def insertStr (x : String) : List String → List String
  | [] => [x]
  | y :: ys => if lexLe x.data y.data then x :: y :: ys else y :: insertStr x ys

/-- Insertion sort on strings (model of Python sorted on a set of strings). -/
def sortStrs (l : List String) : List String := l.foldr insertStr []

/-- Add a member geography under a region, deduplicating within the region
and keeping first-touch order of regions (Python defaultdict of lists). -/
def addMember (m : List (String × List String)) (region v : String) : List (String × List String) :=
  match m.find? (fun e => decide (e.1 = region)) with
  | some e => if v ∈ e.2 then m else m.map (fun e2 => if e2.1 = region then (e2.1, e2.2 ++ [v]) else e2)
  | none => m ++ [(region, [v])]

/-- One data row of the Region sheet: each cell in columns 1 onward is a
member of the region named by that column's header. -/
def geoRowStep (firstRow : List Cell) (regions : List String)
    (m : List (String × List String)) (row : List Cell) : List (String × List String) :=
  (row.enum.drop 1).foldl
    (fun acc iv =>
      if notna iv.2 then
        let valStr := pyTrim (pyStr iv.2)
        if valStr ≠ "" then
          match firstRow.get? iv.1 with
          | some hc =>
            let region : Option String := if notna hc then some (pyTrim (pyStr hc)) else none
            if truthyOptStr region ∧ region.getD "" ∈ regions then
              addMember acc (region.getD "") valStr
            else acc
          | none => acc
        else acc
      else acc)
    m

/-- extract_geography_hierarchy over the raw Region grid. -/
def extract_geography_hierarchy (grid : List (List Cell)) : Geographies :=
  let globalGeos := ["India"]
  match grid with
  | [] => ⟨globalGeos, [], [], sortStrs globalGeos.dedup⟩
  | firstRow :: rest =>
    let regions := (firstRow.drop 1).filterMap
      (fun c =>
        if notna c then
          let s := pyTrim (pyStr c)
          if s ≠ "India" then some s else none
        else none)
    let countries := rest.foldl (geoRowStep firstRow regions) []
    let allNames := globalGeos ++ regions ++ (countries.map (fun e => e.2)).flatten
    ⟨globalGeos, regions, countries, sortStrs allNames.dedup⟩

/-- The first region whose member list contains g (Python iterates the
countries dict in insertion order and breaks at the first hit). -/
def firstRegionOf (G : Geographies) (g : String) : Option String :=
  (G.countries.find? (fun e => decide (g ∈ e.2))).map (fun e => e.1)

/-- Resolution of a record's geography_level and parent_geography against the
geography hierarchy, exactly as in extract_data_records. -/
def resolveGeo (geos : Option Geographies) (g : String) : String × Option String :=
  match geos with
  | none => ("country", none)
  | some G =>
    if g ∈ G.globalGeos then ("global", none)
    else if g ∈ G.regions then ("region", G.globalGeos.head?)
    else match firstRegionOf G g with
      | some r => ("country", some r)
      | none => ("country", none)

/-! ## Master-sheet record extraction (extract_data_records) -/

/-- A data row of a sheet read with header row 0: an association list from
column label (a cell of the header row) to cell value. -/
abbrev SheetRow := List (Cell × Cell)

/-- A sheet with its header row as column labels. -/
structure Sheet where
  columns : List Cell
  rows : List SheetRow
deriving DecidableEq

/-- Model of pandas row.get: the cell under the given column label, none when
the column is absent. -/
def rowGet (row : SheetRow) (k : Cell) : Option Cell :=
  (row.find? (fun p => decide (p.1 = k))).map (fun p => p.2)

/-- Reading a grid with header=0: first row gives the column labels. -/
def sheetOfGrid (grid : List (List Cell)) : Sheet :=
  match grid with
  | [] => ⟨[], []⟩
  | hdr :: rest => ⟨hdr, rest.map (fun r => hdr.zip r)⟩

/-- Insert an integer into a sorted list. -/
def insertInt (x : ℤ) : List ℤ → List ℤ
  | [] => [x]
  | y :: ys => if x ≤ y then x :: y :: ys else y :: insertInt x ys

/-- Insertion sort (model of Python sorted on integers). -/
def sortInts (l : List ℤ) : List ℤ := l.foldr insertInt []

/-- Year columns: every column label that int() parses to a year in
[2000, 2100], sorted ascending. -/
def yearColumns (cols : List Cell) : List ℤ :=
  sortInts (cols.filterMap (fun c =>
    match pyInt c with
    | some y => if 2000 ≤ y ∧ y ≤ 2100 then some y else none
    | none => none))

/-- Python or on two optional cell values (first if truthy, else second). -/
def pyOr (a b : Option Cell) : Option Cell := if truthyOptCell a then a else b

/-- Coerce a looked-up cell to a float: missing or NaN or unparsable becomes
0.0 (the source wraps float() in try/except). -/
def cellVal : Option Cell → ℚ
  | none => 0
  | some c => if notna c then (pyFloat c).getD 0 else 0

/-- The time-series value of a row at a year: look the year up as a string
label, falling back (Python or) to the numeric label, then coerce. -/
def tsValue (row : SheetRow) (y : ℤ) : ℚ :=
  cellVal (pyOr (rowGet row (Cell.text (intToStr y))) (rowGet row (Cell.num (y : ℚ))))

/-- The year to value mapping of one row over the year columns. -/
def timeSeries (yc : List ℤ) (row : SheetRow) : List (ℤ × ℚ) :=
  yc.map (fun y => (y, tsValue row y))

/-- Model of time_series.get(year, 0). -/
def tsGet (ts : List (ℤ × ℚ)) (y : ℤ) : ℚ :=
  ((ts.find? (fun p => decide (p.1 = y))).map Prod.snd).getD 0

/-- Minimum of an integer list (0 on empty; the source only takes min of a
list with at least two elements). -/
def minInt : List ℤ → ℤ
  | [] => 0
  | x :: xs => xs.foldl min x

/-- Maximum of an integer list (0 on empty). -/
def maxInt : List ℤ → ℤ
  | [] => 0
  | x :: xs => xs.foldl max x

/-- The CAGR computation as written in the source (first_year = min of the
year columns, last_year = max, endpoint values looked up in the time series
with default 0, guards in source order); powRecip x n models the float power
x ** (1.0 / n). -/
def cagrOf (powRecip : ℚ → ℕ → ℚ) (yc : List ℤ) (ts : List (ℤ × ℚ)) : ℚ :=
  if 2 ≤ yc.length ∧ ts ≠ [] then
    if 0 < tsGet ts (minInt yc) ∧ 0 < tsGet ts (maxInt yc) then
      if 0 < maxInt yc - minInt yc then
        (powRecip (tsGet ts (maxInt yc) / tsGet ts (minInt yc)) (maxInt yc - minInt yc).toNat - 1)
          * 100
      else 0
    else 0
  else 0

/-- A named column of a row as a stripped string (none when absent or NaN). -/
def getStrField (row : SheetRow) (name : String) : Option String :=
  match rowGet row (Cell.text name) with
  | some c => if notna c then some (pyTrim (pyStr c)) else none
  | none => none

/-- Python or on two optional strings. -/
def pyOrS (a b : Option String) : Option String := if truthyOptStr a then a else b

/-- One extracted data record (value or volume series). -/
structure DataRecord where
  geography : String
  geography_level : String
  parent_geography : Option String
  segment_type : String
  segment : Option String
  segment_level : String
  seg_level_1 : String
  seg_level_2 : String
  seg_level_3 : String
  seg_level_4 : String
  time_series : List (ℤ × ℚ)
  cagr : ℚ
  market_share : ℚ
deriving DecidableEq

/-- Build the record for one data row whose geography is g. -/
def mkRecord (powRecip : ℚ → ℕ → ℚ) (geos : Option Geographies) (yc : List ℤ) (g : String)
    (row : SheetRow) : DataRecord :=
  let st := getStrField row "1st level Segment"
  let l2 := getStrField row "2nd level Segment"
  let l3 := getStrField row "3rd level Segment"
  let l4 := getStrField row "4th level Segment"
  let ts := timeSeries yc row
  let gl := resolveGeo geos g
  { geography := g
    geography_level := gl.1
    parent_geography := gl.2
    segment_type := st.getD ""
    segment := pyOrS l4 (pyOrS l3 (pyOrS l2 st))
    segment_level := if truthyOptStr l3 || truthyOptStr l4 then "parent" else "leaf"
    seg_level_1 := st.getD ""
    seg_level_2 := l2.getD ""
    seg_level_3 := l3.getD ""
    seg_level_4 := l4.getD ""
    time_series := ts
    cagr := round2 (cagrOf powRecip yc ts)
    market_share := 0 }

/-- Process one data row: rows with a missing or empty Geography are skipped. -/
def buildRec (powRecip : ℚ → ℕ → ℚ) (geos : Option Geographies) (yc : List ℤ)
    (row : SheetRow) : Option DataRecord :=
  match getStrField row "Geography" with
  | none => none
  | some g => if g = "" then none else some (mkRecord powRecip geos yc g row)

/-- Sum over the records of the value at a year. -/
def totalOf (recs : List DataRecord) (y : ℤ) : ℚ :=
  (recs.map (fun r => tsGet r.time_series y)).sum

/-- The in-pass market-share assignment at the end of extract_data_records:
fractional shares, only when the base year is a year column and the total is
positive. -/
def applyBaseShare (baseYear : ℤ) (yc : List ℤ) (recs : List DataRecord) : List DataRecord :=
  if baseYear ∈ yc then
    if 0 < totalOf recs baseYear then
      recs.map (fun r =>
        { r with market_share := tsGet r.time_series baseYear / totalOf recs baseYear })
    else recs
  else recs

/-- extract_data_records over a raw Master-sheet grid.  The source reads
base_year from the metadata dict with default 2024; extract_metadata never
sets base_year, so the default is always taken. -/
def extract_data_records (powRecip : ℚ → ℕ → ℚ) (grid : List (List Cell)) (_meta : Metadata)
    (geos : Option Geographies) : List DataRecord :=
  let sheet := sheetOfGrid grid
  let yc := yearColumns sheet.columns
  applyBaseShare 2024 yc (sheet.rows.filterMap (buildRec powRecip geos yc))

/-- The standalone calculate_market_share routine: percentage shares for an
arbitrary year, assigned only when the total is positive. -/
def calculate_market_share (recs : List DataRecord) (y : ℤ) : List DataRecord :=
  if 0 < totalOf recs y then
    recs.map (fun r => { r with market_share := tsGet r.time_series y / totalOf recs y * 100 })
  else recs

/-! ## Assembler (convert_india_spices_to_json year bucketing) -/

/-- The year fields of the output metadata. -/
structure YearsInfo where
  years : List ℤ
  start_year : ℤ
  base_year : ℤ
  forecast_year : ℤ
  historical_years : List ℤ
  forecast_years : List ℤ
deriving DecidableEq

/-- The year bucketing applied to the collected years list (the body of the
assembler once the variable years has been computed). -/
def yearsFieldsOf (years : List ℤ) : YearsInfo :=
  let start_year : ℤ := match years with | [] => 2020 | _ :: _ => minInt years
  let bcands := years.filter (fun y => decide (y ≤ 2024))
  let base_year : ℤ :=
    if (2024 : ℤ) ∈ years then 2024
    else match bcands with | [] => start_year | _ :: _ => maxInt bcands
  let forecast_year : ℤ := match years with | [] => 2032 | _ :: _ => maxInt years
  ⟨years, start_year, base_year, forecast_year,
    years.filter (fun y => decide (y ≤ base_year)),
    years.filter (fun y => decide (base_year < y))⟩

/-- The assembler's year derivation: years are collected (as a sorted
deduplicated set) from the value records only; the volume records are passed
but never consulted, exactly as in the source. -/
def assembleYears (valueRecords : List DataRecord) (_volumeRecords : List DataRecord) : YearsInfo :=
  yearsFieldsOf (sortInts ((valueRecords.map (fun r => r.time_series.map Prod.fst)).flatten).dedup)

/-! ## The conversion pipeline and its error handling -/

/-- A workbook: named sheets of raw cell grids. -/
structure Workbook where
  sheets : List (String × List (List Cell))
deriving DecidableEq

/-- Model of pd.read_excel with a sheet name: a missing sheet raises. -/
def getSheet (wb : Workbook) (name : String) : Except String (List (List Cell)) :=
  match wb.sheets.find? (fun p => decide (p.1 = name)) with
  | some p => Except.ok p.2
  | none => Except.error ("ValueError: worksheet not found: " ++ name)

/-- The document written by the conversion pipeline. -/
structure ConvOutput where
  meta : Metadata
  yearsInfo : YearsInfo
  geographies : Geographies
  segments : List (String × SegInfo)
  value_records : List DataRecord
  volume_records : List DataRecord
deriving DecidableEq

/-- The whole conversion run: every extraction step in source order; any
failure aborts the run before anything is written. -/
def convert_india_spices_to_json (powRecip : ℚ → ℕ → ℚ) (wb : Workbook) :
    Except String ConvOutput := do
  let pGrid ← getSheet wb "Parameters"
  let meta := extract_metadata pGrid
  let rGrid ← getSheet wb "Region"
  let geos := extract_geography_hierarchy rGrid
  let sGrid ← getSheet wb "Segmentation"
  let segs := extract_segment_hierarchy sGrid
  let vGrid ← getSheet wb "Master Sheet-Value"
  let valueRecs := extract_data_records powRecip vGrid meta (some geos)
  let volGrid ← getSheet wb "Master Sheet-Volume"
  let volRecs := extract_data_records powRecip volGrid meta (some geos)
  pure ⟨meta, assembleYears valueRecs volRecs, geos, segs, valueRecs, volRecs⟩

/-- The top-level call site: the single try/except around the conversion.  The
returned option is the written file (none = an error was printed and no file
was produced). -/
def convertMain (powRecip : ℚ → ℕ → ℚ) (wb : Workbook) : Option ConvOutput :=
  (convert_india_spices_to_json powRecip wb).toOption

/-! ## Distributor pipeline (generate_distributors_json.py) -/

/-- Python dict.update on an association list: existing keys are overwritten
in place, new keys are appended in update order. -/
def updateAssoc (m upd : List (ℕ × String)) : List (ℕ × String) :=
  (m.map (fun kv =>
    match upd.find? (fun e => decide (e.1 = kv.1)) with
    | some kv2 => kv2
    | none => kv)) ++
  upd.filter (fun kv => !(m.any (fun e => decide (e.1 = kv.1))))

/-- Column to field mapping for Module 1 - Standard (14 columns). -/
def base_mapping : List (ℕ × String) :=
  [(0, "s_no"), (1, "company_name"), (2, "year_established"), (3, "headquarters_emirate"),
   (4, "cities_regions_covered"), (5, "ownership_type"), (6, "business_type"),
   (7, "no_of_employees"), (8, "key_contact_person"), (9, "designation_role"),
   (10, "email_address"), (11, "phone_whatsapp"), (12, "linkedin_profile"), (13, "website_url")]

/-- The update applied on top of the Standard mapping for Module 2 - Advance. -/
def advance_updates : List (ℕ × String) :=
  [(8, "turnover_scale"), (9, "key_contact_person"), (10, "designation_role"),
   (11, "email_address"), (12, "phone_whatsapp"), (13, "linkedin_profile"),
   (14, "website_url"), (15, "core_product_categories"), (16, "specialty_focus"),
   (17, "price_segment")]

/-- Column to field mapping for Module 2 - Advance (18 columns). -/
def advance_mapping : List (ℕ × String) := updateAssoc base_mapping advance_updates

/-- The update applied on top of the Advance mapping for Module 3 - Premium. -/
def premium_updates : List (ℕ × String) :=
  [(18, "key_brands_represented"), (19, "exclusive_partnerships"), (20, "duration_partnerships"),
   (21, "retail_chains"), (22, "pharmacies"), (23, "spas_salons_clinics"),
   (24, "ecommerce_platforms"), (25, "channel_strength"), (26, "distribution_type"),
   (27, "emirates_served"), (28, "regional_extensions"), (29, "warehouse_logistics"),
   (30, "delivery_storage"), (31, "competitive_benchmarking"), (32, "additional_comments")]

/-- Column to field mapping for Module 3 - Premium (33 columns). -/
def premium_mapping : List (ℕ × String) := updateAssoc advance_mapping premium_updates

/-- Dispatch on the module name, exactly as in the source. -/
def get_module_field_mapping (moduleName : String) : List (ℕ × String) :=
  if strContains moduleName "Standard" then base_mapping
  else if strContains moduleName "Advance" then advance_mapping
  else if strContains moduleName "Premium" then premium_mapping
  else base_mapping

/-- Look a column index up in a mapping. -/
def mappingGet (m : List (ℕ × String)) (i : ℕ) : Option String :=
  (m.find? (fun e => decide (e.1 = i))).map (fun e => e.2)

/-- One extracted distributor record. -/
structure DistRecord where
  id : String
  module : String
  s_no : Option ℤ
  fields : List (String × Option String)
deriving DecidableEq

/-- The tier slug used in synthetic ids: lower-cased, spaces to underscores. -/
def slugOf (s : String) : String :=
  ⟨s.data.map (fun c => if c = ' ' then '_' else Char.toLower c)⟩

/-- The mapped fields of one data row (column 0 is handled separately). -/
def distFieldsOf (mapping : List (ℕ × String)) (row : List Cell) : List (String × Option String) :=
  mapping.filterMap (fun kv =>
    if 0 < kv.1 then
      some (kv.2,
        match row.get? kv.1 with
        | some c => if notna c ∧ pyTrim (pyStr c) ≠ "" then some (pyTrim (pyStr c)) else none
        | none => none)
    else none)

/-- A record is kept only when it carries a truthy company_name. -/
def keepDist (fields : List (String × Option String)) : Bool :=
  match fields.find? (fun e => decide (e.1 = "company_name")) with
  | some e =>
    match e.2 with
    | some s => !(s == "")
    | none => false
  | none => false

/-- The data-row loop of extract_distributors_from_sheet, starting at absolute
row index idx.  Building the id applies int() to the column-0 cell without a
guard; a non-numeric cell raises (error aborts the whole sheet). -/
def extractDistRows (mapping : List (ℕ × String)) (sheetName : String) :
    ℕ → List (List Cell) → Except String (List DistRecord)
  | _, [] => Except.ok []
  | idx, row :: rest =>
    let cell0 := (row.get? 0).getD Cell.empty
    if !(notna cell0) || pyTrim (pyStr cell0) == "" then
      extractDistRows mapping sheetName (idx + 1) rest
    else
      match (if notna cell0 then (pyInt cell0).map intToStr else some (intToStr (idx : ℤ))) with
      | none => Except.error ("ValueError: invalid literal for int(): " ++ pyStr cell0)
      | some nStr =>
        let r : DistRecord :=
          { id := slugOf sheetName ++ "_" ++ nStr
            module := sheetName
            s_no := if notna cell0 && strIsDigit (pyStr cell0) then pyInt cell0 else none
            fields := distFieldsOf mapping row }
        match extractDistRows mapping sheetName (idx + 1) rest with
        | Except.error e => Except.error e
        | Except.ok rs => Except.ok (if keepDist r.fields then r :: rs else rs)

/-- extract_distributors_from_sheet: header at row index 4 (reading it raises
when the sheet has fewer than 5 rows), data from row index 5. -/
def extract_distributors_from_sheet (sheetName : String) (grid : List (List Cell)) :
    Except String (List DistRecord) :=
  if grid.length < 5 then Except.error "IndexError: header row 4 out of range"
  else extractDistRows (get_module_field_mapping sheetName) sheetName 5 (grid.drop 5)

/-- The three module sheet names. -/
def distModules : List String :=
  ["Module 1 - Standard", "Module 2 - Advance", "Module 3 - Premium"]

/-- Reading and extracting one module sheet. -/
def moduleRun (wb : Workbook) (m : String) : Except String (List DistRecord) :=
  (getSheet wb m).bind (extract_distributors_from_sheet m)

/-- The document written by the distributor pipeline. -/
structure DistOutput where
  data : List (String × List DistRecord)
deriving DecidableEq

/-- generate_distributors_json: each module's extraction is wrapped in its own
try/except; a failing module contributes an empty list and the output file is
written regardless, exactly as in the source. -/
def generate_distributors_json (wb : Workbook) : DistOutput :=
  ⟨distModules.map (fun m =>
    (m, match moduleRun wb m with
        | Except.ok d => d
        | Except.error _ => []))⟩

/-! ## Helper lemmas -/

instance {ε α : Type} [DecidableEq ε] [DecidableEq α] : DecidableEq (Except ε α)
  | Except.ok a, Except.ok b => decidable_of_iff (a = b) (by simp)
  | Except.ok _, Except.error _ => Decidable.isFalse (by simp)
  | Except.error _, Except.ok _ => Decidable.isFalse (by simp)
  | Except.error e, Except.error f => decidable_of_iff (e = f) (by simp)

theorem sum_map_div {α : Type} (l : List α) (f : α → ℚ) (T : ℚ) :
    (l.map (fun a => f a / T)).sum = (l.map f).sum / T := by
  induction l with
  | nil => simp
  | cons a t ih => simp [ih, add_div]

theorem sum_map_mul_right {α : Type} (l : List α) (f : α → ℚ) (c : ℚ) :
    (l.map (fun a => f a * c)).sum = (l.map f).sum * c := by
  induction l with
  | nil => simp
  | cons a t ih => simp [ih, add_mul]

theorem timeSeries_find (row : SheetRow) (yc : List ℤ) (y : ℤ) (hy : y ∈ yc) :
    (timeSeries yc row).find? (fun p => decide (p.1 = y)) = some (y, tsValue row y) := by
  induction yc with
  | nil => cases hy
  | cons z rest ih =>
    by_cases hzy : z = y
    · subst hzy
      simp [timeSeries, List.find?]
    · have hyr : y ∈ rest := by
        rcases List.mem_cons.mp hy with h | h
        · exact absurd h.symm hzy
        · exact h
      have step : timeSeries (z :: rest) row = (z, tsValue row z) :: timeSeries rest row := rfl
      rw [step, List.find?_cons_of_neg _ (by simp [hzy]), ih hyr]

theorem timeSeries_find_none (row : SheetRow) (yc : List ℤ) (y : ℤ) (hy : y ∉ yc) :
    (timeSeries yc row).find? (fun p => decide (p.1 = y)) = none := by
  induction yc with
  | nil => rfl
  | cons z rest ih =>
    have hzy : z ≠ y := fun h => hy (h ▸ List.mem_cons_self z rest)
    have hyr : y ∉ rest := fun h => hy (List.mem_cons_of_mem z h)
    have step : timeSeries (z :: rest) row = (z, tsValue row z) :: timeSeries rest row := rfl
    rw [step, List.find?_cons_of_neg _ (by simp [hzy]), ih hyr]

theorem tsGet_timeSeries_not_mem (row : SheetRow) (yc : List ℤ) (y : ℤ) (hy : y ∉ yc) :
    tsGet (timeSeries yc row) y = 0 := by
  simp [tsGet, timeSeries_find_none row yc y hy]

theorem mem_insertInt {x y : ℤ} {l : List ℤ} : y ∈ insertInt x l ↔ y = x ∨ y ∈ l := by
  induction l with
  | nil => simp [insertInt]
  | cons a t ih =>
    by_cases hxa : x ≤ a
    · simp [insertInt, hxa]
    · simp [insertInt, hxa, ih]
      tauto

theorem sorted_insertInt (x : ℤ) (l : List ℤ) (h : l.Sorted (· ≤ ·)) :
    (insertInt x l).Sorted (· ≤ ·) := by
  induction l with
  | nil => simp [insertInt]
  | cons a t ih =>
    rw [List.sorted_cons] at h
    obtain ⟨ha, ht⟩ := h
    by_cases hxa : x ≤ a
    · rw [insertInt, if_pos hxa, List.sorted_cons]
      refine ⟨?_, by rw [List.sorted_cons]; exact ⟨ha, ht⟩⟩
      intro c hc
      rcases List.mem_cons.mp hc with h | h
      · exact h ▸ hxa
      · exact le_trans hxa (ha c h)
    · rw [insertInt, if_neg hxa, List.sorted_cons]
      refine ⟨?_, ih ht⟩
      intro c hc
      rcases mem_insertInt.mp hc with h | h
      · subst h; omega
      · exact ha c h

theorem sorted_sortInts (l : List ℤ) : (sortInts l).Sorted (· ≤ ·) := by
  induction l with
  | nil => simp [sortInts]
  | cons a t ih => exact sorted_insertInt a (sortInts t) ih

theorem filter_le_append_filter_gt (b : ℤ) (l : List ℤ) (h : l.Sorted (· ≤ ·)) :
    l.filter (fun y => decide (y ≤ b)) ++ l.filter (fun y => decide (b < y)) = l := by
  induction l with
  | nil => simp
  | cons a t ih =>
    rw [List.sorted_cons] at h
    obtain ⟨ha, ht⟩ := h
    by_cases hab : a ≤ b
    · have h2 : ¬ b < a := by omega
      simp [List.filter_cons, hab, h2, ih ht]
    · have hba : b < a := by omega
      have hall : ∀ c ∈ t, b < c := fun c hc => lt_of_lt_of_le hba (ha c hc)
      have h1 : t.filter (fun y => decide (y ≤ b)) = [] := by
        rw [List.filter_eq_nil_iff]
        intro c hc
        simp only [decide_eq_true_eq]
        have := hall c hc
        omega
      have h2 : t.filter (fun y => decide (b < y)) = t := by
        rw [List.filter_eq_self]
        intro c hc
        simp only [decide_eq_true_eq]
        exact hall c hc
      simp [List.filter_cons, hab, hba, h1, h2]

theorem round2_zero : round2 0 = 0 := by
  norm_num [round2]

theorem cagrOf_eq (p : ℚ → ℕ → ℚ) (yc : List ℤ) (row : SheetRow) :
    cagrOf p yc (timeSeries yc row) =
      if 2 ≤ yc.length ∧ minInt yc < maxInt yc ∧
          0 < tsGet (timeSeries yc row) (minInt yc) ∧
          0 < tsGet (timeSeries yc row) (maxInt yc) then
        (p (tsGet (timeSeries yc row) (maxInt yc) / tsGet (timeSeries yc row) (minInt yc))
          (maxInt yc - minInt yc).toNat - 1) * 100
      else 0 := by
  by_cases h1 : 2 ≤ yc.length
  · have hyc : yc ≠ [] := by
      intro h
      rw [h] at h1
      simp at h1
    have hts : timeSeries yc row ≠ [] := by
      intro h
      exact hyc (by simpa [timeSeries] using h)
    rw [cagrOf, if_pos ⟨h1, hts⟩]
    by_cases h2 : 0 < tsGet (timeSeries yc row) (minInt yc) ∧
        0 < tsGet (timeSeries yc row) (maxInt yc)
    · rw [if_pos h2]
      by_cases h3 : minInt yc < maxInt yc
      · rw [if_pos (by omega : (0:ℤ) < maxInt yc - minInt yc),
          if_pos ⟨h1, h3, h2.1, h2.2⟩]
      · rw [if_neg (by omega : ¬ (0:ℤ) < maxInt yc - minInt yc),
          if_neg (by tauto)]
    · rw [if_neg h2, if_neg (by tauto)]
  · rw [cagrOf, if_neg (by tauto), if_neg (by tauto)]

theorem processParamRow_falsy (acc : MetaAcc) (k : String) (v : Cell)
    (h : truthyCell v = false) : processParamRow acc [Cell.text k, v] = acc := by
  cases v <;> simp_all [processParamRow, truthyOptCell, truthyCell, notna]

theorem processParamRow_emptyVal (acc : MetaAcc) (k : String) :
    processParamRow acc [Cell.text k, Cell.empty] = acc := by
  simp [processParamRow, truthyOptCell, notna]

/-! ## Claim theorems -/

/-- C1: extract_data_records computes each record's cagr as the rounded CAGR
formula exactly when the year-column list has length at least two with two
distinct years (min strictly below max) and both endpoint values are strictly
positive; in every other case (fewer than two year columns, an endpoint value
at most 0, or first year equal to last year) the cagr is exactly 0.  powRecip
x n models the float power x ** (1.0 / n), and round2 models rounding to two
decimal places.  The final market-share pass of extract_data_records leaves
every cagr unchanged, and the extractor is the share pass applied to the
per-row records. -/
theorem cagr_formula_cases (powRecip : ℚ → ℕ → ℚ) (geos : Option Geographies) (yc : List ℤ)
    (g : String) (row : SheetRow) (b : ℤ) (recs : List DataRecord)
    (grid : List (List Cell)) (meta : Metadata) :
    (mkRecord powRecip geos yc g row).cagr =
      (if 2 ≤ yc.length ∧ minInt yc < maxInt yc ∧
          0 < tsGet (timeSeries yc row) (minInt yc) ∧
          0 < tsGet (timeSeries yc row) (maxInt yc) then
        round2 ((powRecip (tsGet (timeSeries yc row) (maxInt yc) /
            tsGet (timeSeries yc row) (minInt yc)) (maxInt yc - minInt yc).toNat - 1) * 100)
      else 0) ∧
    (applyBaseShare b yc recs).map (fun r => r.cagr) = recs.map (fun r => r.cagr) ∧
    extract_data_records powRecip grid meta geos =
      applyBaseShare 2024 (yearColumns (sheetOfGrid grid).columns)
        ((sheetOfGrid grid).rows.filterMap
          (buildRec powRecip geos (yearColumns (sheetOfGrid grid).columns))) := by
  refine ⟨?_, ?_, rfl⟩
  · have h0 : (mkRecord powRecip geos yc g row).cagr =
        round2 (cagrOf powRecip yc (timeSeries yc row)) := rfl
    rw [h0, cagrOf_eq]
    by_cases hC : 2 ≤ yc.length ∧ minInt yc < maxInt yc ∧
        0 < tsGet (timeSeries yc row) (minInt yc) ∧ 0 < tsGet (timeSeries yc row) (maxInt yc)
    · rw [if_pos hC, if_pos hC]
    · rw [if_neg hC, if_neg hC, round2_zero]
  · by_cases hb : b ∈ yc
    · by_cases ht : 0 < totalOf recs b
      · simp only [applyBaseShare, if_pos hb, if_pos ht, List.map_map]
        rfl
      · simp only [applyBaseShare, if_pos hb, if_neg ht]
    · simp only [applyBaseShare, if_neg hb]

/-- C2: whenever the base year is a year column and the records' base-year
values have a strictly positive total, the fractional shares assigned by the
in-pass routine of extract_data_records sum to exactly 1, the percentage
shares assigned by the standalone calculate_market_share sum to exactly 100,
and the two assignments differ pointwise by exactly the factor 100.  The last
conjunct ties the hypothesis to extractor-built records: a year outside the
year columns contributes 0 to every time series, so a positive base-year total
forces the base year to be a year column. -/
theorem market_share_sums (recs : List DataRecord) (yc : List ℤ) (b : ℤ) :
    (b ∈ yc → 0 < totalOf recs b →
      ((applyBaseShare b yc recs).map (fun r => r.market_share)).sum = 1 ∧
      (calculate_market_share recs b).map (fun r => r.market_share) =
        ((applyBaseShare b yc recs).map (fun r => r.market_share)).map (fun q => q * 100)) ∧
    (0 < totalOf recs b →
      ((calculate_market_share recs b).map (fun r => r.market_share)).sum = 100) ∧
    (∀ (yc2 : List ℤ) (row : SheetRow) (y : ℤ), y ∉ yc2 → tsGet (timeSeries yc2 row) y = 0) := by
  have hcs : 0 < totalOf recs b → (calculate_market_share recs b).map (fun r => r.market_share) =
      recs.map (fun r => tsGet r.time_series b / totalOf recs b * 100) := by
    intro ht
    simp only [calculate_market_share, if_pos ht, List.map_map]
    rfl
  refine ⟨?_, ?_, fun yc2 row y hy => tsGet_timeSeries_not_mem row yc2 y hy⟩
  · intro hb ht
    have hts : ((applyBaseShare b yc recs).map (fun r => r.market_share)) =
        recs.map (fun r => tsGet r.time_series b / totalOf recs b) := by
      simp only [applyBaseShare, if_pos hb, if_pos ht, List.map_map]
      rfl
    constructor
    · rw [hts, sum_map_div]
      have htot : (recs.map (fun r => tsGet r.time_series b)).sum = totalOf recs b := rfl
      rw [htot]
      exact div_self (ne_of_gt ht)
    · rw [hcs ht, hts, List.map_map]
      rfl
  · intro ht
    rw [hcs ht, sum_map_mul_right, sum_map_div]
    have htot : (recs.map (fun r => tsGet r.time_series b)).sum = totalOf recs b := rfl
    rw [htot, div_self (ne_of_gt ht)]
    norm_num

/-- A concrete row whose 2020 cell holds unparsable text. -/
def rowAbc : SheetRow := [(Cell.text "2020", Cell.text "abc")]

/-- Two concrete records with base-year values 3 and 1. -/
def recsC2 : List DataRecord :=
  [{ geography := "India", geography_level := "global", parent_geography := none,
     segment_type := "", segment := none, segment_level := "leaf",
     seg_level_1 := "", seg_level_2 := "", seg_level_3 := "", seg_level_4 := "",
     time_series := [(2024, 3)], cagr := 0, market_share := 0 },
   { geography := "North India", geography_level := "region", parent_geography := some "India",
     segment_type := "", segment := none, segment_level := "leaf",
     seg_level_1 := "", seg_level_2 := "", seg_level_3 := "", seg_level_4 := "",
     time_series := [(2024, 1)], cagr := 0, market_share := 0 }]

/-- C2 witness: the shares of the two concrete records sum to 1 (fractional)
and to 100 (percentage), and the year 2020 outside the year columns reads 0. -/
theorem market_share_sums_witness :
    ((applyBaseShare 2024 [2024] recsC2).map (fun r => r.market_share)).sum = 1 ∧
    ((calculate_market_share recsC2 2024).map (fun r => r.market_share)).sum = 100 ∧
    (calculate_market_share recsC2 2024).map (fun r => r.market_share) =
      ((applyBaseShare 2024 [2024] recsC2).map (fun r => r.market_share)).map
        (fun q => q * 100) ∧
    tsGet (timeSeries [2024] rowAbc) 2020 = 0 := by
  have ht : (0:ℚ) < totalOf recsC2 2024 := by
    norm_num [recsC2, totalOf, tsGet, List.find?]
  have h := market_share_sums recsC2 [2024] 2024
  exact ⟨(h.1 (by decide) ht).1, h.2.1 ht, (h.1 (by decide) ht).2,
    h.2.2 [2024] rowAbc 2020 (by decide)⟩

/-- The geography hierarchy of the spec's resolution scenario. -/
def demoGeos : Geographies :=
  ⟨["India"], ["North India", "South India"], [("North India", ["Punjab"])],
   ["India", "North India", "Punjab", "South India"]⟩

/-- C4: extract_data_records resolves geography_level and parent_geography by
exactly the ordered cases of the source (global with no parent, then region
with the global name as parent, then the first region whose member list
contains the geography, then the country/none fallback); the record fields are
exactly the resolution result; and on the spec's concrete hierarchy, Punjab,
North India, India and Atlantis resolve as claimed. -/
theorem geography_resolution :
    (∀ (G : Geographies) (g : String), g ∈ G.globalGeos →
      resolveGeo (some G) g = ("global", none)) ∧
    (∀ (G : Geographies) (g : String), g ∉ G.globalGeos → g ∈ G.regions →
      resolveGeo (some G) g = ("region", G.globalGeos.head?)) ∧
    (∀ (G : Geographies) (g r : String), g ∉ G.globalGeos → g ∉ G.regions →
      firstRegionOf G g = some r → resolveGeo (some G) g = ("country", some r)) ∧
    (∀ (G : Geographies) (g : String), g ∉ G.globalGeos → g ∉ G.regions →
      firstRegionOf G g = none → resolveGeo (some G) g = ("country", none)) ∧
    (∀ (p : ℚ → ℕ → ℚ) (geos : Option Geographies) (yc : List ℤ) (g : String) (row : SheetRow),
      ((mkRecord p geos yc g row).geography_level, (mkRecord p geos yc g row).parent_geography) =
        resolveGeo geos g) ∧
    resolveGeo (some demoGeos) "Punjab" = ("country", some "North India") ∧
    resolveGeo (some demoGeos) "North India" = ("region", some "India") ∧
    resolveGeo (some demoGeos) "India" = ("global", none) ∧
    resolveGeo (some demoGeos) "Atlantis" = ("country", none) := by
  refine ⟨?_, ?_, ?_, ?_, ?_, by decide, by decide, by decide, by decide⟩
  · intro G g hg
    simp [resolveGeo, hg]
  · intro G g hg1 hg2
    simp [resolveGeo, hg1, hg2]
  · intro G g r hg1 hg2 hr
    simp [resolveGeo, hg1, hg2, hr]
  · intro G g hg1 hg2 hr
    simp [resolveGeo, hg1, hg2, hr]
  · intro p geos yc g row
    simp [mkRecord]

/-- C4 witness: the four concrete resolutions, each obtained from the general
ordered cases of the theorem. -/
theorem geography_resolution_witness :
    resolveGeo (some demoGeos) "India" = ("global", none) ∧
    resolveGeo (some demoGeos) "North India" = ("region", some "India") ∧
    resolveGeo (some demoGeos) "Punjab" = ("country", some "North India") ∧
    resolveGeo (some demoGeos) "Atlantis" = ("country", none) := by
  refine ⟨?_, ?_, ?_, ?_⟩
  · exact geography_resolution.1 demoGeos "India" (by decide)
  · exact (geography_resolution.2.1 demoGeos "North India" (by decide) (by decide)).trans
      (by decide)
  · exact geography_resolution.2.2.1 demoGeos "Punjab" "North India" (by decide) (by decide)
      (by decide)
  · exact geography_resolution.2.2.2.1 demoGeos "Atlantis" (by decide) (by decide) (by decide)

/-- The year-bucketing facts of yearsFieldsOf over an arbitrary years list. -/
theorem yearsFieldsOf_spec (ys : List ℤ) :
    (yearsFieldsOf ys).years = ys ∧
    (ys ≠ [] → (yearsFieldsOf ys).start_year = minInt ys ∧
      (yearsFieldsOf ys).forecast_year = maxInt ys) ∧
    ((2024:ℤ) ∈ ys → (yearsFieldsOf ys).base_year = 2024) ∧
    ((2024:ℤ) ∉ ys → ys.filter (fun y => decide (y ≤ 2024)) ≠ [] →
      (yearsFieldsOf ys).base_year = maxInt (ys.filter (fun y => decide (y ≤ 2024)))) ∧
    ((2024:ℤ) ∉ ys → ys.filter (fun y => decide (y ≤ 2024)) = [] →
      (yearsFieldsOf ys).base_year = (yearsFieldsOf ys).start_year) ∧
    (yearsFieldsOf ys).historical_years =
      ys.filter (fun y => decide (y ≤ (yearsFieldsOf ys).base_year)) ∧
    (yearsFieldsOf ys).forecast_years =
      ys.filter (fun y => decide ((yearsFieldsOf ys).base_year < y)) := by
  have hbase : (yearsFieldsOf ys).base_year =
      (if (2024 : ℤ) ∈ ys then 2024
       else match ys.filter (fun y => decide (y ≤ 2024)) with
         | [] => (yearsFieldsOf ys).start_year
         | _ :: _ => maxInt (ys.filter (fun y => decide (y ≤ 2024)))) := rfl
  refine ⟨rfl, ?_, ?_, ?_, ?_, rfl, rfl⟩
  · intro h
    cases ys with
    | nil => exact absurd rfl h
    | cons a t => exact ⟨rfl, rfl⟩
  · intro h
    rw [hbase, if_pos h]
  · intro h hf
    rw [hbase, if_neg h]
    cases hc : ys.filter (fun y => decide (y ≤ 2024)) with
    | nil => exact absurd hc hf
    | cons a t => rfl
  · intro h hf
    rw [hbase, if_neg h, hf]

/-- C5: the assembler derives the years list solely from the value records'
time-series keys (changing the volume records changes nothing), as the sorted
deduplicated union; start_year is the minimum and forecast_year the maximum of
a non-empty years list; base_year is 2024 when present, else the largest year
at most 2024, else start_year; and historical_years and forecast_years are the
filters at base_year whose concatenation restores the full years list. -/
theorem assembler_years_spec (v vol vol2 : List DataRecord) (Y : YearsInfo)
    (hY : Y = assembleYears v vol) :
    assembleYears v vol2 = Y ∧
    Y.years = sortInts ((v.map (fun r => r.time_series.map Prod.fst)).flatten).dedup ∧
    (Y.years ≠ [] → Y.start_year = minInt Y.years ∧ Y.forecast_year = maxInt Y.years) ∧
    ((2024 : ℤ) ∈ Y.years → Y.base_year = 2024) ∧
    ((2024 : ℤ) ∉ Y.years → Y.years.filter (fun y => decide (y ≤ 2024)) ≠ [] →
      Y.base_year = maxInt (Y.years.filter (fun y => decide (y ≤ 2024)))) ∧
    ((2024 : ℤ) ∉ Y.years → Y.years.filter (fun y => decide (y ≤ 2024)) = [] →
      Y.base_year = Y.start_year) ∧
    Y.historical_years = Y.years.filter (fun y => decide (y ≤ Y.base_year)) ∧
    Y.forecast_years = Y.years.filter (fun y => decide (Y.base_year < y)) ∧
    Y.historical_years ++ Y.forecast_years = Y.years := by
  subst hY
  have h := yearsFieldsOf_spec
    (sortInts ((v.map (fun r => r.time_series.map Prod.fst)).flatten).dedup)
  refine ⟨rfl, rfl, h.2.1, h.2.2.1, h.2.2.2.1, h.2.2.2.2.1, h.2.2.2.2.2.1, h.2.2.2.2.2.2, ?_⟩
  have hs := sorted_sortInts ((v.map (fun r => r.time_series.map Prod.fst)).flatten).dedup
  have hunfold : assembleYears v vol =
      yearsFieldsOf (sortInts ((v.map (fun r => r.time_series.map Prod.fst)).flatten).dedup) :=
    rfl
  rw [hunfold, h.2.2.2.2.2.1, h.2.2.2.2.2.2, h.1]
  exact filter_le_append_filter_gt _ _ hs

/-- A concrete value-record list with years 2020 and 2030. -/
def recsC5 : List DataRecord :=
  [{ geography := "India", geography_level := "global", parent_geography := none,
     segment_type := "", segment := none, segment_level := "leaf",
     seg_level_1 := "", seg_level_2 := "", seg_level_3 := "", seg_level_4 := "",
     time_series := [(2020, 0), (2030, 0)], cagr := 0, market_share := 0 }]

/-- C5 witness: on records with years 2020 and 2030, 2024 is absent so the
base year falls back to the largest year at most 2024; the partition restores
the years list. -/
theorem assembler_years_witness :
    (assembleYears recsC5 []).base_year =
      maxInt (((assembleYears recsC5 []).years).filter (fun y => decide (y ≤ 2024))) ∧
    (assembleYears recsC5 []).start_year = minInt (assembleYears recsC5 []).years ∧
    (assembleYears recsC5 []).historical_years ++ (assembleYears recsC5 []).forecast_years =
      (assembleYears recsC5 []).years := by
  have h := assembler_years_spec recsC5 [] [] (assembleYears recsC5 []) rfl
  exact ⟨h.2.2.2.2.1 (by decide) (by decide), (h.2.2.1 (by decide)).1,
    h.2.2.2.2.2.2.2.2⟩

/-- C6: the time series is total over the year columns: its keys are exactly
the year columns in order, every year column is found with its (always
rational, never absent) value, a year whose column is missing from the row
reads 0, and a cell that float() cannot parse (or a NaN cell) coerces to 0
instead of raising. -/
theorem time_series_total (yc : List ℤ) (row : SheetRow) :
    (timeSeries yc row).map Prod.fst = yc ∧
    (∀ y ∈ yc, (timeSeries yc row).find? (fun p => decide (p.1 = y)) =
      some (y, tsValue row y)) ∧
    (∀ y : ℤ, rowGet row (Cell.text (intToStr y)) = none →
      rowGet row (Cell.num (y : ℚ)) = none → tsValue row y = 0) ∧
    (∀ c : Cell, pyFloat c = none → cellVal (some c) = 0) ∧
    cellVal none = 0 := by
  refine ⟨?_, fun y hy => timeSeries_find row yc y hy, ?_, ?_, rfl⟩
  · rw [timeSeries, List.map_map]
    exact List.map_id yc
  · intro y h1 h2
    simp [tsValue, pyOr, h1, h2, truthyOptCell, cellVal]
  · intro c hc
    cases hnot : notna c <;> simp [cellVal, hc, hnot]

/-- C6 witness: with year columns 2020 and 2021 and a row holding only
unparsable text under 2020, the keys are exactly the year columns, 2020 is
found (with value 0), the missing 2021 reads 0, and the unparsable cell
coerces to 0. -/
theorem time_series_total_witness :
    (timeSeries [2020, 2021] rowAbc).map Prod.fst = [2020, 2021] ∧
    (timeSeries [2020, 2021] rowAbc).find? (fun p => decide (p.1 = 2020)) =
      some (2020, tsValue rowAbc 2020) ∧
    tsValue rowAbc 2021 = 0 ∧
    cellVal (some (Cell.text "abc")) = 0 := by
  refine ⟨(time_series_total [2020, 2021] rowAbc).1,
    (time_series_total [2020, 2021] rowAbc).2.1 2020 (by decide),
    (time_series_total [2020, 2021] rowAbc).2.2.1 2021 (by decide) (by decide),
    (time_series_total [2020, 2021] rowAbc).2.2.2.1 (Cell.text "abc") (by decide)⟩

/-- C7 counterexample: column 10 is in the Standard mapping's domain and is
not 8 or 9, yet Standard and Advance disagree there (email_address vs
designation_role), refuting the claim that columns 8 and 9 are the sole
differing indices. -/
theorem mapping_additivity_counterexample :
    10 < 14 ∧ (10 : ℕ) ≠ 8 ∧ (10 : ℕ) ≠ 9 ∧
    mappingGet advance_mapping 10 ≠ mappingGet base_mapping 10 ∧
    mappingGet advance_mapping 10 = some "designation_role" ∧
    mappingGet base_mapping 10 = some "email_address" := by decide

/-- C7 (amended): Premium's mapping agrees with Advance's on every column
index in Advance's domain (0 to 17), while Advance agrees with Standard
exactly on columns 0 to 7: columns 8 through 13 are the indices of Standard's
domain whose field names differ, because inserting turnover_scale at column 8
shifts Standard's fields at columns 8 to 13 to Advance's columns 9 to 14.  The
dispatcher returns the three mappings for the three module names. -/
theorem mapping_additivity_amended :
    (∀ i : ℕ, i < 18 → mappingGet premium_mapping i = mappingGet advance_mapping i) ∧
    (∀ i : ℕ, i < 8 → mappingGet advance_mapping i = mappingGet base_mapping i) ∧
    (∀ i : ℕ, i < 14 → 8 ≤ i → mappingGet advance_mapping i ≠ mappingGet base_mapping i) ∧
    (∀ i : ℕ, i < 15 → 9 ≤ i → mappingGet advance_mapping i = mappingGet base_mapping (i - 1)) ∧
    get_module_field_mapping "Module 1 - Standard" = base_mapping ∧
    get_module_field_mapping "Module 2 - Advance" = advance_mapping ∧
    get_module_field_mapping "Module 3 - Premium" = premium_mapping := by decide

/-- C7 witness: the amended statement instantiated at concrete columns. -/
theorem mapping_additivity_witness :
    mappingGet premium_mapping 10 = mappingGet advance_mapping 10 ∧
    mappingGet advance_mapping 7 = mappingGet base_mapping 7 ∧
    mappingGet advance_mapping 10 ≠ mappingGet base_mapping 10 ∧
    mappingGet advance_mapping 10 = mappingGet base_mapping 9 := by
  exact ⟨mapping_additivity_amended.1 10 (by decide),
    mapping_additivity_amended.2.1 7 (by decide),
    mapping_additivity_amended.2.2.1 10 (by decide) (by decide),
    mapping_additivity_amended.2.2.2.1 10 (by decide) (by decide)⟩

/-- A distributor sheet whose first data row has non-numeric text in column 0
followed by a well-formed row. -/
def distGridBad : List (List Cell) :=
  [[], [], [], [], [Cell.text "S.No.", Cell.text "COMPANY NAME"],
   [Cell.text "A12", Cell.text "Acme Trading"],
   [Cell.text "2", Cell.text "Beta LLC"]]

/-- The same distributor sheet with a numeric first data row. -/
def distGridOk : List (List Cell) :=
  [[], [], [], [], [Cell.text "S.No.", Cell.text "COMPANY NAME"],
   [Cell.text "12", Cell.text "Acme Trading"],
   [Cell.text "2", Cell.text "Beta LLC"]]

/-- C10: a row whose column-0 cell is the non-empty non-numeric text A12
passes the empty-row skip, but building the id applies int() to the cell
without a guard, raising a ValueError that aborts extraction of the whole
sheet (the valid row after it is lost); the isdigit guard protects only s_no,
and with a digit cell the same sheet extracts both rows. -/
theorem distributor_id_int_failure :
    extract_distributors_from_sheet "Module 1 - Standard" distGridBad =
      Except.error "ValueError: invalid literal for int(): A12" ∧
    strIsDigit "A12" = false ∧
    ((extract_distributors_from_sheet "Module 1 - Standard" distGridOk).toOption.map
      (fun l => l.map (fun r => (r.id, r.s_no)))) =
      some [("module_1_-_standard_12", some 12), ("module_1_-_standard_2", some 2)] := by
  decide

/-- A distributor workbook whose Advance sheet contains the failing row. -/
def wbBad : Workbook :=
  ⟨[("Module 1 - Standard", distGridOk),
    ("Module 2 - Advance", distGridBad),
    ("Module 3 - Premium", [[], [], [], [], []])]⟩

/-- An empty workbook: reading any sheet fails. -/
def wbEmpty : Workbook := ⟨[]⟩

/-- C8 counterexample: in the distributor pipeline the Advance module's
extraction raises, yet the output document is still produced, carrying the two
Standard records and an empty list for the failed module - so a run with a
failed extraction step is not all-or-nothing and does write an output file. -/
theorem pipeline_error_handling_counterexample :
    moduleRun wbBad "Module 2 - Advance" =
      Except.error "ValueError: invalid literal for int(): A12" ∧
    (generate_distributors_json wbBad).data.map (fun p => (p.1, p.2.length)) =
      [("Module 1 - Standard", 2), ("Module 2 - Advance", 0), ("Module 3 - Premium", 0)] := by
  decide

/-- C8 (amended): the conversion pipeline is all-or-nothing - its output file
exists exactly when every extraction step succeeded, and any extraction error
yields no output; the distributor pipeline instead catches errors per module,
stores an empty list for a failed module, and writes the output document
regardless, as the concrete failing workbook shows. -/
theorem pipeline_error_handling_amended (powRecip : ℚ → ℕ → ℚ) :
    (∀ (wb : Workbook) (r : ConvOutput),
      convertMain powRecip wb = some r ↔
        convert_india_spices_to_json powRecip wb = Except.ok r) ∧
    (∀ (wb : Workbook) (e : String),
      convert_india_spices_to_json powRecip wb = Except.error e →
        convertMain powRecip wb = none) ∧
    (∀ (wb : Workbook) (m : String) (e : String), m ∈ distModules →
      moduleRun wb m = Except.error e →
        (generate_distributors_json wb).data.find? (fun p => decide (p.1 = m)) =
          some (m, [])) ∧
    moduleRun wbBad "Module 2 - Advance" =
      Except.error "ValueError: invalid literal for int(): A12" ∧
    (generate_distributors_json wbBad).data.map (fun p => (p.1, p.2.length)) =
      [("Module 1 - Standard", 2), ("Module 2 - Advance", 0), ("Module 3 - Premium", 0)] := by
  refine ⟨?_, ?_, ?_, by decide, by decide⟩
  · intro wb r
    unfold convertMain
    cases h : convert_india_spices_to_json powRecip wb <;>
      simp [Except.toOption]
  · intro wb e h
    unfold convertMain
    rw [h]
    rfl
  · intro wb m e hm herr
    fin_cases hm <;> simp [generate_distributors_json, distModules, List.find?, herr]

/-- C8 witness: a workbook with no sheets makes the conversion pipeline write
nothing, and the failing distributor workbook still carries an (empty) entry
for its failed module. -/
theorem pipeline_error_handling_witness :
    convertMain (fun x _ => x) wbEmpty = none ∧
    (generate_distributors_json wbBad).data.find?
      (fun p => decide (p.1 = "Module 2 - Advance")) = some ("Module 2 - Advance", []) := by
  constructor
  · exact (pipeline_error_handling_amended (fun x _ => x)).2.1 wbEmpty
      "ValueError: worksheet not found: Parameters" (by decide)
  · exact (pipeline_error_handling_amended (fun x _ => x)).2.2.1 wbBad "Module 2 - Advance"
      "ValueError: invalid literal for int(): A12" (by decide) (by decide)

/-- C9: a Parameters row whose value cell holds a falsy scalar (the number 0
or boolean False) is skipped exactly as if the value cell were empty - the
whole scan result is unchanged - and so the matched canonical field keeps its
documented default (here Value Unit keeps Cr.), even though the cell is
present and non-blank. -/
theorem metadata_falsy_value_skipped :
    (∀ (pre post : List (List Cell)) (k : String) (v : Cell), truthyCell v = false →
      extract_metadata (pre ++ [Cell.text k, v] :: post) =
        extract_metadata (pre ++ [Cell.text k, Cell.empty] :: post)) ∧
    truthyCell (Cell.num 0) = false ∧
    truthyCell (Cell.boolean false) = false ∧
    notna (Cell.num 0) = true ∧
    (extract_metadata [[Cell.text "Value Unit", Cell.num 0]]).value_unit = "Cr." ∧
    extract_metadata [[Cell.text "Value Unit", Cell.num 0]] = extract_metadata [[]] := by
  refine ⟨?_, by decide, by decide, by decide, by decide, by decide⟩
  intro pre post k v h
  unfold extract_metadata
  rw [List.foldl_append, List.foldl_cons, List.foldl_append, List.foldl_cons,
    processParamRow_falsy _ _ _ h, processParamRow_emptyVal]

/-- C9 witness: the skip theorem applied to a concrete falsy row. -/
theorem metadata_falsy_value_skipped_witness :
    extract_metadata ([] ++ [Cell.text "Volume Unit", Cell.num 0] :: []) =
      extract_metadata ([] ++ [Cell.text "Volume Unit", Cell.empty] :: []) :=
  metadata_falsy_value_skipped.1 [] [] "Volume Unit" (Cell.num 0) (by decide)

end SpicesDash
